import Mathlib

/-!
Shallow embedding of src/scripts/generate-blog-sitemap.js and verification of
its specification.  The script is a one-shot pipeline: fetch posts from the
WordPress API (paginated), fall back to the RSS feed, fetch categories, render
a sitemap XML document and write it.  External capabilities (HTTP transport,
the system clock, JavaScript Date parsing, the filesystem) are passed in as
explicit parameters:

  * a page response is a record (body array, X-WP-TotalPages header);
  * the function `iso : String → String` stands for
    s ↦ new Date(s).toISOString() on parseable inputs, and in the RSS fetcher
    `pd : String → Option String` stands for the same operation where `none`
    models the exception thrown by toISOString on an invalid date;
  * `nowIso` stands for new Date().toISOString() at the time of the run;
  * writing the file is modelled by returning the file content.

Machine numbers that matter here are small non-negative counts; JS numbers
appearing in comparisons are modelled as Int (header values) and Nat (list
lengths, page indices).
-/

set_option maxHeartbeats 1000000

namespace BlogSitemap

/-- A WordPress taxonomy term as embedded in a post
(the object read at line 193 of the script and built at line 116). -/
structure Term where
  slug : String := ""
  taxonomy : String := ""
deriving Repr, DecidableEq

/-- The fields of a post record that the script reads.  `embedded` models
the chain post._embedded?.[wp:term] — a list of term lists — with `none`
when any link of the optional chain is absent.  `link`, `modified`, `date`
are `none` when the property is absent (JS undefined). -/
structure Post where
  slug : String := ""
  link : Option String := none
  modified : Option String := none
  date : Option String := none
  embedded : Option (List (List Term)) := none
deriving Repr, DecidableEq

/-- A WordPress category: the script reads category.slug and category.count
(lines 180-182). -/
structure Category where
  slug : String := ""
  count : Int := 0
deriving Repr, DecidableEq

/-- One successful page response of the posts endpoint: the JSON array body
and the X-WP-TotalPages header.  `totalPagesHeader = none` models a header
that is absent or non-numeric: in the script both leave totalPages unchanged
(an absent header stringifies to 0 and fails the positivity test at line 83,
a non-numeric one yields NaN and fails the isNaN test), while
`totalPagesHeader = some n` models a numeric header of value n. -/
structure PageResponse where
  data : List Post := []
  totalPagesHeader : Option Int := none
deriving Repr, DecidableEq

/-- Outcome of one run of writeBlogSitemap: the content written to
dist/sitemap-blog.xml and the boolean returned to the caller. -/
structure RunOutcome where
  fileContent : String
  success : Bool
deriving Repr, DecidableEq

/-! ### String utilities mirroring the JavaScript operations used -/

/-- Boolean test that `pat` is an initial segment of `s` (used to locate
substring occurrences, as JS String.prototype.split does with a string
separator). -/
def strStarts : List Char → List Char → Bool
  | [], _ => true
  | _ :: _, [] => false
  | a :: as, b :: bs => a = b && strStarts as bs

/-- Number of (possibly overlapping) occurrences of `pat` in `s`; used to
count the <url> blocks of a rendered document. -/
def countOcc (pat : List Char) : List Char → Nat
  | [] => 0
  | c :: rest => (if strStarts pat (c :: rest) then 1 else 0) + countOcc pat rest

/-- Worker for `jsSplit`: scans `s`, splitting at each occurrence of `sep`
(leftmost, non-overlapping), accumulating the current segment reversed in
`cur`.  The fuel argument makes the recursion structural; callers pass
fuel ≥ length of s, which is always enough because every step consumes at
least one character. -/
def splitCharsAux (sep : List Char) : Nat → List Char → List Char → List (List Char)
  | _, [], cur => [cur.reverse]
  | 0, s, cur => [cur.reverse ++ s]
  | fuel + 1, c :: rest, cur =>
    if strStarts sep (c :: rest) then
      cur.reverse :: splitCharsAux sep fuel ((c :: rest).drop sep.length) []
    else
      splitCharsAux sep fuel rest (c :: cur)

/-- JavaScript String.prototype.split with a non-empty string separator:
splits on each leftmost, non-overlapping occurrence; consecutive separators
and boundary separators produce empty segments.  (The script only splits on
the separators item-tag and slash, both non-empty.) -/
def jsSplit (sep s : String) : List String :=
  (splitCharsAux sep.toList (s.toList.length + 1) s.toList []).map (fun cs => String.mk cs)

/-- Case-insensitive character comparison, for the /i regex flag. -/
def lowerEq (a b : Char) : Bool := a.toLower = b.toLower

/-- Case-insensitive initial-segment test (regex literal parts under /i). -/
def ciStarts : List Char → List Char → Bool
  | [], _ => true
  | _ :: _, [] => false
  | a :: as, b :: bs => lowerEq a b && ciStarts as bs

/-- Attempt to match the regex openT([^<]+)closeT (case-insensitive literals)
at the start of `s`, returning the capture.  The captured run is the maximal
run of characters other than a left angle bracket; since the close tag starts
with one, greedy matching with this character class never backtracks. -/
def tagValueAt (openT closeT s : List Char) : Option (List Char) :=
  if ciStarts openT s then
    let rest := s.drop openT.length
    let cap := rest.takeWhile (fun c => c ≠ '<')
    if cap.length = 0 then none
    else if ciStarts closeT (rest.drop cap.length) then some cap
    else none
  else none

/-- First match of the regex openT([^<]+)closeT in `s`, scanning start
positions left to right as the JS regex engine does. -/
def findTagAux (openT closeT : List Char) : List Char → Option (List Char)
  | [] => none
  | c :: rest =>
    match tagValueAt openT closeT (c :: rest) with
    | some v => some v
    | none => findTagAux openT closeT rest

/-- Capture of the first case-insensitive match of openT([^<]+)closeT,
modelling item.match at lines 106-107 of the script. -/
def findTag (openT closeT s : String) : Option String :=
  (findTagAux openT.toList closeT.toList s.toList).map (fun cs => String.mk cs)

/-- The part of s before the first capital T: models
s.split(one-letter-T)[0] applied to ISO date strings (line 183, 197). -/
def truncDate (s : String) : String := s.takeWhile (fun c => c ≠ 'T')

/-! ### The renderer (lines 175-210 of writeBlogSitemap) -/

/-- Category slug of a post as the renderer reads it (lines 193-194):
post._embedded?.[wp:term]?.[0]?.[0]?.slug, falling back to the literal
blog when the chain breaks or the slug is falsy. -/
def categorySlugOfPost (p : Post) : String :=
  match p.embedded with
  | none => "blog"
  | some outer =>
    match outer.head? with
    | none => "blog"
    | some inner =>
      match inner.head? with
      | none => "blog"
      | some t => if t.slug = "" then "blog" else t.slug

/-- The lastmod value of a post entry (line 197): the modified field when
truthy (present and non-empty), converted via Date and truncated to the date
part, else the current date truncated likewise. -/
def postLastmod (iso : String → String) (nowIso : String) (p : Post) : String :=
  match p.modified with
  | some m => if m = "" then truncDate nowIso else truncDate (iso m)
  | none => truncDate nowIso

/-- The string pushed for one post (lines 199-204). -/
def postEntry (b nowIso : String) (iso : String → String) (p : Post) : String :=
  "  <url>\n    <loc>" ++ b ++ "/" ++ categorySlugOfPost p ++ "/" ++ p.slug ++
  "</loc>\n    <lastmod>" ++ postLastmod iso nowIso p ++
  "</lastmod>\n    <changefreq>monthly</changefreq>\n    <priority>0.6</priority>\n  </url>"

/-- The string pushed for one category (lines 181-186). -/
def categoryEntry (b nowIso : String) (c : Category) : String :=
  "  <url>\n    <loc>" ++ b ++ "/blog/" ++ c.slug ++
  "</loc>\n    <lastmod>" ++ truncDate nowIso ++
  "</lastmod>\n    <changefreq>weekly</changefreq>\n    <priority>0.7</priority>\n  </url>"

/-- The urls array built at lines 175-205: category entries are pushed first
(only those with count > 0, behind a non-empty guard on the list), then one
entry per post in order. -/
def buildUrls (b nowIso : String) (iso : String → String)
    (cats : List Category) (posts : List Post) : List String :=
  let urls : List String := []
  let urls :=
    if 0 < cats.length then
      cats.foldl (fun acc c => if 0 < c.count then acc ++ [categoryEntry b nowIso c] else acc) urls
    else urls
  posts.foldl (fun acc p => acc ++ [postEntry b nowIso iso p]) urls

/-- The XML declaration and opening urlset tag shared by both documents the
script can write (lines 207-208 and 231-232). -/
def sitemapOpen : String :=
  "<?xml version=\"1.0\" encoding=\"UTF-8\"?>\n<urlset xmlns=\"http://www.sitemaps.org/schemas/sitemap/0.9\">"

/-- The full rendered document (lines 207-210). -/
def renderSitemap (b nowIso : String) (iso : String → String)
    (posts : List Post) (cats : List Category) : String :=
  sitemapOpen ++ "\n" ++ String.intercalate "\n" (buildUrls b nowIso iso cats posts) ++ "\n</urlset>"

/-- The empty fallback document written in the catch branch (lines 231-233). -/
def emptySitemapText : String := sitemapOpen ++ "\n</urlset>"

/-- Number of opening url tags in a document. -/
def countUrlEntries (s : String) : Nat := countOcc "<url>".toList s.toList

/-! ### fetchAllPosts (lines 66-91) -/

/-- Update of totalPages from one response header (lines 82-85): a numeric,
positive header value replaces totalPages; an absent, non-numeric or
non-positive one leaves it unchanged. -/
def updateTotalPages (h : Option Int) (tp : Int) : Int :=
  match h with
  | some n => if 0 < n then n else tp
  | none => tp

/-- The pagination loop of fetchAllPosts (lines 71-88), instrumented: given
the source as a function from page number to response, it threads
(page, totalPages, accumulated posts, number of requests issued so far).
The loop of the script has no built-in bound, so the embedding uses fuel:
`none` means the loop was still running after `fuel` iterations. -/
def fetchLoop (pages : Nat → PageResponse) (limit : Nat) :
    Nat → Nat → Int → List Post → Nat → Option (List Post × Nat)
  | 0, _, _, _, _ => none
  | fuel + 1, page, totalPages, posts, reqs =>
    if (page : Int) ≤ totalPages ∧ posts.length < limit then
      let r := pages page
      fetchLoop pages limit fuel (page + 1)
        (updateTotalPages r.totalPagesHeader totalPages) (posts ++ r.data) (reqs + 1)
    else
      some (posts, reqs)

/-- fetchAllPosts: run the loop from page 1 with an initial total of one page
and no posts, then truncate to the configured limit (line 90).  The second
component counts the page requests issued. -/
def fetchAllPosts (pages : Nat → PageResponse) (limit fuel : Nat) :
    Option (List Post × Nat) :=
  (fetchLoop pages limit fuel 1 1 [] 0).map (fun r => (r.1.take limit, r.2))

/-! ### fetchPostsFromRss (lines 93-129) -/

/-- Construction of one post from one item fragment (lines 105-118).
`pd` models s ↦ new Date(s).toISOString(), with `none` for the exception
thrown on an unparseable date; that exception aborts the whole map, hence
the Except result.  `nowIso` is the current timestamp used when the fragment
has no pubDate. -/
def rssItemPost (pd : String → Option String) (nowIso : String) (item : String) :
    Except String Post :=
  let lnk := findTag "<link>" "</link>" item
  let dt := findTag "<pubdate>" "</pubdate>" item
  let segs : List String :=
    match lnk with
    | some l => (jsSplit "/" l).filter (fun s => s ≠ "")
    | none => []
  let slug := (segs.getLast?).getD ""
  let categorySlug := if 2 ≤ segs.length then segs.getD (segs.length - 2) "blog" else "blog"
  let mkPost := fun (d : String) =>
    ({ slug := slug, link := lnk, modified := none, date := some d,
       embedded := some [[{ slug := categorySlug, taxonomy := "category" }]] } : Post)
  match dt with
  | some d =>
    match pd d with
    | some isoD => Except.ok (mkPost isoD)
    | none => Except.error "Invalid time value"
  | none => Except.ok (mkPost nowIso)

/-- The filter at line 120: keep posts whose slug and link are both truthy. -/
def sanitize (posts : List Post) : List Post :=
  posts.filter (fun p => p.slug ≠ "" ∧ p.link.getD "" ≠ "")

/-- The body of the try block of fetchPostsFromRss (lines 95-124), as a
fallible computation: non-success status, a date-parsing exception, and the
zero-usable-posts case are the failure paths.  `ok` is response.ok of the
single feed request, `body` its text. -/
def rssInner (ok : Bool) (body : String) (pd : String → Option String)
    (nowIso : String) (limit : Nat) : Except String (List Post) :=
  if ok = false then Except.error "RSS returned non-success status"
  else
    let items := ((jsSplit "<item>" body).drop 1).map (fun chunk => "<item>" ++ chunk)
    match items.mapM (rssItemPost pd nowIso) with
    | Except.error e => Except.error e
    | Except.ok posts =>
      let sane := sanitize posts
      if sane.length = 0 then Except.error "RSS contained no posts"
      else Except.ok (sane.take limit)

/-- fetchPostsFromRss: the try/catch wrapper (lines 93-129) — any failure of
the inner computation is caught, logged, and an empty list returned. -/
def fetchPostsFromRss (ok : Bool) (body : String) (pd : String → Option String)
    (nowIso : String) (limit : Nat) : List Post :=
  match rssInner ok body pd nowIso limit with
  | Except.ok l => l
  | Except.error _ => []

/-! ### Top-level orchestration (writeBlogSitemap, lines 141-245) -/

/-- The posts variable after the first try/catch (lines 145-154): the fetched
list on success, empty when fetchAllPosts threw. -/
def primaryPosts (primary : Except String (List Post)) : List Post :=
  match primary with
  | Except.ok ps => ps
  | Except.error _ => []

/-- One run of writeBlogSitemap over the outcomes of its three fetches:
`primary` is the result of fetchAllPosts (an error models the thrown
SourceUnavailable condition), `rss` what fetchPostsFromRss returns when
consulted (it never throws), `cats` what fetchCategories returns (it never
throws).  When no posts remain the body throws and the catch branch (lines
226-244) writes the empty document and returns false; otherwise the rendered
document is written and true returned. -/
def writeBlogSitemap (primary : Except String (List Post)) (rss : List Post)
    (cats : List Category) (b nowIso : String) (iso : String → String) : RunOutcome :=
  let posts := primaryPosts primary
  let posts := if posts.length = 0 then rss else posts
  if posts.length = 0 then
    { fileContent := emptySitemapText, success := false }
  else
    { fileContent := renderSitemap b nowIso iso posts cats, success := true }

/-! ### Definitions following the specification's words (for refinement claims) -/

/-- Category slug of a post per spec 4.5: read from the post's embedded
category association if present, else the fixed literal default. -/
def specPostCategorySlug (p : Post) : String :=
  match (p.embedded.bind List.head?).bind List.head? with
  | some t => if t.slug = "" then "blog" else t.slug
  | none => "blog"

/-- lastmod of a post entry per spec 4.5: the post's modification date if
present (non-empty) else the current date, both truncated to the date part. -/
def specPostLastmod (iso : String → String) (nowIso : String) (p : Post) : String :=
  if p.modified.getD "" = "" then truncDate nowIso
  else truncDate (iso (p.modified.getD ""))

/-- A post entry per spec 4.5: location baseUrl/categorySlug/slug, lastmod as
above, changefreq monthly, priority 0.6. -/
def specPostEntry (b nowIso : String) (iso : String → String) (p : Post) : String :=
  "  <url>\n    <loc>" ++ b ++ "/" ++ specPostCategorySlug p ++ "/" ++ p.slug ++
  "</loc>\n    <lastmod>" ++ specPostLastmod iso nowIso p ++
  "</lastmod>\n    <changefreq>monthly</changefreq>\n    <priority>0.6</priority>\n  </url>"

/-- A category entry per spec 4.5: location baseUrl/blog/categorySlug,
lastmod the current date, changefreq weekly, priority 0.7. -/
def specCategoryEntry (b nowIso : String) (c : Category) : String :=
  "  <url>\n    <loc>" ++ b ++ "/blog/" ++ c.slug ++
  "</loc>\n    <lastmod>" ++ truncDate nowIso ++
  "</lastmod>\n    <changefreq>weekly</changefreq>\n    <priority>0.7</priority>\n  </url>"

/-- Slug of a fallback post per spec 4.3: the last non-empty path segment of
the link (empty when there is none). -/
def specSlugOfLink (l : String) : String :=
  ((((jsSplit "/" l).filter (fun s => s ≠ "")).getLast?).getD "")

/-- Category slug of a fallback post per spec 4.3: the second-to-last
non-empty path segment of the link, defaulting to the literal blog. -/
def specCategorySlugOfLink (l : String) : String :=
  let segs := (jsSplit "/" l).filter (fun s => s ≠ "")
  if 2 ≤ segs.length then segs.getD (segs.length - 2) "blog" else "blog"

/-! ### Helper lemmas -/

theorem foldl_push_eq_map {α β : Type} (f : α → β) (l : List α) (init : List β) :
    l.foldl (fun acc x => acc ++ [f x]) init = init ++ l.map f := by
  induction l generalizing init with
  | nil => simp
  | cons x xs ih => simp [ih]

theorem foldl_push_filter (f : Category → String) (l : List Category) (init : List String) :
    l.foldl (fun acc c => if 0 < c.count then acc ++ [f c] else acc) init
      = init ++ (l.filter (fun c => 0 < c.count)).map f := by
  induction l generalizing init with
  | nil => simp
  | cons x xs ih =>
    by_cases h : (0 : Int) < x.count
    · simp [h, ih]
    · simp [h, ih]

theorem categorySlugOfPost_eq_spec (p : Post) :
    categorySlugOfPost p = specPostCategorySlug p := by
  cases hp : p.embedded with
  | none => simp [categorySlugOfPost, specPostCategorySlug, hp]
  | some outer =>
    cases outer with
    | nil => simp [categorySlugOfPost, specPostCategorySlug, hp]
    | cons inner rest =>
      cases inner with
      | nil => simp [categorySlugOfPost, specPostCategorySlug, hp]
      | cons t ts => simp [categorySlugOfPost, specPostCategorySlug, hp]

theorem postLastmod_eq_spec (iso : String → String) (now : String) (p : Post) :
    postLastmod iso now p = specPostLastmod iso now p := by
  cases hm : p.modified with
  | none => simp [postLastmod, specPostLastmod, hm]
  | some m =>
    by_cases h : m = ""
    · simp [postLastmod, specPostLastmod, hm, h]
    · simp [postLastmod, specPostLastmod, hm, h]

theorem postEntry_eq_spec (b now : String) (iso : String → String) (p : Post) :
    postEntry b now iso p = specPostEntry b now iso p := by
  unfold postEntry specPostEntry
  rw [categorySlugOfPost_eq_spec, postLastmod_eq_spec]

theorem categoryEntry_eq_spec (b now : String) (c : Category) :
    categoryEntry b now c = specCategoryEntry b now c := rfl

/-! ### Claim theorems -/

/-- C5: the renderer emits exactly one entry per post, in the post sequence's
given order, each of the shape of specPostEntry: location
baseUrl/categorySlug/slug with the category slug from the embedded category
association else the literal blog, lastmod the modification date if present
else the current date (truncated to the date part), changefreq monthly,
priority 0.6.  (Rendering with no categories isolates the post entries.) -/
theorem renderPostEntries_spec (b now : String) (iso : String → String) (posts : List Post) :
    buildUrls b now iso [] posts = posts.map (specPostEntry b now iso)
    ∧ (buildUrls b now iso [] posts).length = posts.length := by
  have hf : postEntry b now iso = specPostEntry b now iso :=
    funext (postEntry_eq_spec b now iso)
  have h : buildUrls b now iso [] posts = posts.map (specPostEntry b now iso) := by
    unfold buildUrls
    simp [foldl_push_eq_map, hf]
  exact ⟨h, by simp [h]⟩

/-- C6: in the rendered urls list, every category entry precedes every post
entry, a category entry appears for exactly the categories with positive
count, and each category entry has the shape of specCategoryEntry: location
baseUrl/blog/categorySlug, changefreq weekly, priority 0.7. -/
theorem renderUrls_order_spec (b now : String) (iso : String → String)
    (cats : List Category) (posts : List Post) :
    buildUrls b now iso cats posts
      = (cats.filter (fun c => 0 < c.count)).map (specCategoryEntry b now)
        ++ posts.map (specPostEntry b now iso) := by
  have hf : postEntry b now iso = specPostEntry b now iso :=
    funext (postEntry_eq_spec b now iso)
  have hc : categoryEntry b now = specCategoryEntry b now :=
    funext (categoryEntry_eq_spec b now)
  unfold buildUrls
  by_cases h : 0 < cats.length
  · simp [h, foldl_push_filter, foldl_push_eq_map, hf, hc]
  · have hnil : cats = [] := List.length_eq_zero.mp (by omega)
    subst hnil
    simp [foldl_push_eq_map, hf]

/-- C1: when the primary fetch yields zero posts (an error or an empty list)
and the RSS fallback also yields zero posts, writeBlogSitemap still produces
the fixed empty document — the well-formed envelope with zero url entries —
and reports failure (false) to its caller; being a total function of its
inputs, nothing escapes it. -/
theorem writeBlogSitemap_empty_degradation (primary : Except String (List Post))
    (cats : List Category) (b now : String) (iso : String → String)
    (hp : primaryPosts primary = []) :
    writeBlogSitemap primary [] cats b now iso
        = { fileContent := emptySitemapText, success := false }
    ∧ countUrlEntries emptySitemapText = 0
    ∧ emptySitemapText = sitemapOpen ++ "\n</urlset>" := by
  refine ⟨?_, by decide, rfl⟩
  simp [writeBlogSitemap, hp]

theorem writeBlogSitemap_empty_degradation_witness :
    writeBlogSitemap (Except.error "WordPress API 403") []
        [{ slug := "news", count := 3 }] "https://boxentertainment.ae"
        "2024-06-01T12:00:00.000Z" (fun s => s)
        = { fileContent := emptySitemapText, success := false }
    ∧ countUrlEntries emptySitemapText = 0
    ∧ emptySitemapText = sitemapOpen ++ "\n</urlset>" :=
  writeBlogSitemap_empty_degradation (Except.error "WordPress API 403")
    [{ slug := "news", count := 3 }] "https://boxentertainment.ae"
    "2024-06-01T12:00:00.000Z" (fun s => s) rfl

/-- C2: the number of posts returned never exceeds the configured limit:
fetchAllPosts truncates its accumulated pages to the limit before returning,
and fetchPostsFromRss truncates the sanitized feed items likewise. -/
theorem posts_rendered_le_limit :
    (∀ (pages : Nat → PageResponse) (limit fuel : Nat) (r : List Post × Nat),
        fetchAllPosts pages limit fuel = some r → r.1.length ≤ limit)
    ∧ (∀ (ok : Bool) (body : String) (pd : String → Option String)
        (now : String) (limit : Nat),
        (fetchPostsFromRss ok body pd now limit).length ≤ limit) := by
  constructor
  · intro pages limit fuel r h
    obtain ⟨l, n⟩ := r
    unfold fetchAllPosts at h
    cases hl : fetchLoop pages limit fuel 1 1 [] 0 with
    | none => rw [hl] at h; exact absurd h (by simp)
    | some q =>
      rw [hl] at h
      have h' : (q.1.take limit, q.2) = (l, n) := Option.some.inj h
      have hfst : q.1.take limit = l := congrArg Prod.fst h'
      show l.length ≤ limit
      rw [← hfst]
      exact List.length_take_le limit q.1
  · intro ok body pd now limit
    unfold fetchPostsFromRss
    cases hr : rssInner ok body pd now limit with
    | error e => simp
    | ok l =>
      show l.length ≤ limit
      simp only [rssInner] at hr
      by_cases hok : ok = false
      · rw [if_pos hok] at hr
        exact absurd hr (by simp)
      · rw [if_neg hok] at hr
        cases hm : List.mapM (rssItemPost pd now)
            (((jsSplit "<item>" body).drop 1).map (fun chunk => "<item>" ++ chunk)) with
        | error e => rw [hm] at hr; exact absurd hr (by simp)
        | ok posts =>
          rw [hm] at hr
          dsimp only at hr
          by_cases hz : (sanitize posts).length = 0
          · rw [if_pos hz] at hr
            exact absurd hr (by simp)
          · rw [if_neg hz] at hr
            rw [Except.ok.injEq] at hr
            subst hr
            exact List.length_take_le limit _

theorem posts_rendered_le_limit_witness :
    ((([] : List Post).take 100, 1) : List Post × Nat).1.length ≤ 100
    ∧ (fetchPostsFromRss true "" (fun _ => none) "" 100).length ≤ 100 :=
  ⟨posts_rendered_le_limit.1 (fun _ => { data := [], totalPagesHeader := none })
      100 5 (([] : List Post).take 100, 1) rfl,
   posts_rendered_le_limit.2 true "" (fun _ => none) "" 100⟩

/-- A source whose first page reports four total pages and whose later pages
send no (or a non-numeric) X-WP-TotalPages header, each page body empty. -/
def pagesCex : Nat → PageResponse :=
  fun p =>
    if p = 1 then { data := [], totalPagesHeader := some 4 }
    else { data := [], totalPagesHeader := none }

/-- C3 counterexample: it is not the case that whenever a page response
carries an absent or non-numeric total-pages header the loop runs at most
once more.  Against pagesCex the loop issues four requests although the
header of request 2 is already absent: the absent header retains the
previous total of four pages rather than defaulting to one. -/
theorem totalPages_header_cex :
    ¬ (∀ (pages : Nat → PageResponse) (limit fuel : Nat) (r : List Post × Nat),
        fetchAllPosts pages limit fuel = some r →
        ∀ i, 1 ≤ i → i ≤ r.2 → (pages i).totalPagesHeader = none → r.2 ≤ i + 1) := by
  intro h
  have h4 := h pagesCex 100 6 ([], 4) (by decide) 2 (by decide) (by decide) (by decide)
  omega

/-- C3 amended: the total-page count is read from the X-WP-TotalPages header
on each page request and updated only when the value is numeric and positive;
when the header is absent or non-numeric the count retains its previous
value, whose initial default is one page — so if the first response carries
an absent or non-numeric header (and nothing raised it before), the loop
stops after that single request, but a later absent header does not bound
the remaining iterations. -/
theorem totalPages_header_amended :
    (∀ tp : Int, updateTotalPages none tp = tp)
    ∧ (∀ (pages : Nat → PageResponse) (limit fuel : Nat),
        0 < limit → 2 ≤ fuel → (pages 1).totalPagesHeader = none →
        fetchAllPosts pages limit fuel = some ((pages 1).data.take limit, 1)) := by
  constructor
  · intro tp; rfl
  · intro pages limit fuel hl hf h1
    obtain ⟨f2, rfl⟩ : ∃ f2, fuel = f2 + 2 := ⟨fuel - 2, by omega⟩
    unfold fetchAllPosts
    rw [fetchLoop, if_pos ⟨by norm_num, by simpa using hl⟩]
    dsimp only
    rw [h1]
    rw [fetchLoop, if_neg (by simp [updateTotalPages])]
    simp

theorem totalPages_header_amended_witness :
    updateTotalPages none 7 = 7
    ∧ fetchAllPosts (fun _ => { data := [], totalPagesHeader := none }) 100 2
        = some (([] : List Post).take 100, 1) :=
  ⟨totalPages_header_amended.1 7,
   totalPages_header_amended.2 (fun _ => { data := [], totalPagesHeader := none })
     100 2 (by norm_num) (by norm_num) rfl⟩

/-- An adversarial source: every page body is empty and the header of page p
reports p + 1 total pages, so the loop's exit condition never becomes true. -/
def pagesDiv : Nat → PageResponse :=
  fun p => { data := [], totalPagesHeader := some ((p : Int) + 1) }

theorem fetchLoop_pagesDiv_none (fuel : Nat) :
    ∀ (p reqs : Nat), fetchLoop pagesDiv 100 fuel p (p : Int) [] reqs = none := by
  induction fuel with
  | zero => intro p reqs; rfl
  | succ f ih =>
    intro p reqs
    rw [fetchLoop, if_pos ⟨le_refl _, by norm_num⟩]
    have hupd : updateTotalPages (pagesDiv p).totalPagesHeader (p : Int)
        = ((p + 1 : Nat) : Int) := by
      simp only [pagesDiv, updateTotalPages]
      rw [if_pos (show (0 : Int) < (p : Int) + 1 by omega)]
      push_cast
      ring
    have hdata : ([] : List Post) ++ (pagesDiv p).data = [] := rfl
    dsimp only
    rw [hupd, hdata]
    exact ih (p + 1) (reqs + 1)

/-- C4 counterexample: the pagination loop does not terminate for every
sequence of successful page responses — against pagesDiv it never stops, so
no amount of fuel makes the embedded loop return. -/
theorem pagination_divergence_cex :
    ¬ ∃ (fuel : Nat) (r : List Post × Nat), fetchAllPosts pagesDiv 100 fuel = some r := by
  rintro ⟨fuel, r, h⟩
  unfold fetchAllPosts at h
  have hn := fetchLoop_pagesDiv_none fuel 1 0
  rw [Nat.cast_one] at hn
  rw [hn] at h
  exact absurd h (by simp)

theorem fetchLoop_terminates_bounded (pages : Nat → PageResponse) (limit B : Nat)
    (hB : ∀ p n, (pages p).totalPagesHeader = some n → n ≤ (B : Int)) :
    ∀ (fuel page : Nat) (tp : Int) (posts : List Post) (reqs : Nat),
      1 ≤ fuel → tp ≤ (B : Int) → B + 2 ≤ page + fuel →
      ∃ r, fetchLoop pages limit fuel page tp posts reqs = some r := by
  intro fuel
  induction fuel with
  | zero => intro page tp posts reqs h1; omega
  | succ f ih =>
    intro page tp posts reqs _ htp hcnt
    rw [fetchLoop]
    by_cases hc : (page : Int) ≤ tp ∧ posts.length < limit
    · rw [if_pos hc]
      have hpB : page ≤ B := by exact_mod_cast hc.1.trans htp
      have htp' : updateTotalPages (pages page).totalPagesHeader tp ≤ (B : Int) := by
        cases hh : (pages page).totalPagesHeader with
        | none => simpa [updateTotalPages] using htp
        | some m =>
          have hm := hB page m hh
          by_cases h0 : 0 < m
          · simpa [updateTotalPages, h0] using hm
          · simpa [updateTotalPages, h0] using htp
      exact ih (page + 1) _ _ (reqs + 1) (by omega) htp' (by omega)
    · rw [if_neg hc]
      exact ⟨_, rfl⟩

/-- C4 amended: the loop does terminate whenever the reported total-page
header values are bounded — in particular for any source reporting a fixed
total — since the page index grows by one per request while the total can
never exceed the bound; fuel one beyond the bound suffices. -/
theorem pagination_terminates_bounded (pages : Nat → PageResponse) (limit B : Nat)
    (hB1 : 1 ≤ B)
    (hB : ∀ p n, (pages p).totalPagesHeader = some n → n ≤ (B : Int)) :
    ∃ fuel r, fetchAllPosts pages limit fuel = some r := by
  obtain ⟨r, hr⟩ := fetchLoop_terminates_bounded pages limit B hB (B + 1) 1 1 [] 0
    (by omega) (by exact_mod_cast hB1) (by omega)
  exact ⟨B + 1, (r.1.take limit, r.2), by rw [fetchAllPosts, hr]; rfl⟩

theorem pagination_terminates_bounded_witness :
    ∃ fuel r,
      fetchAllPosts (fun _ => { data := [], totalPagesHeader := none }) 100 fuel = some r :=
  pagination_terminates_bounded (fun _ => { data := [], totalPagesHeader := none }) 100 1
    (by norm_num) (fun p n h => Option.noConfusion h)

/-- C7: fetchPostsFromRss never raises — it is a total function of the
response — and every failure of the inner computation (non-success status,
an unparseable date aborting extraction, zero usable posts) yields the empty
list; any non-empty result comes from a successful inner computation. -/
theorem fetchPostsFromRss_never_raises (ok : Bool) (body : String)
    (pd : String → Option String) (now : String) (limit : Nat) :
    (ok = false → fetchPostsFromRss ok body pd now limit = [])
    ∧ (∀ e, rssInner ok body pd now limit = Except.error e →
        fetchPostsFromRss ok body pd now limit = [])
    ∧ (fetchPostsFromRss ok body pd now limit = []
       ∨ ∃ l, rssInner ok body pd now limit = Except.ok l ∧ l ≠ []
           ∧ fetchPostsFromRss ok body pd now limit = l) := by
  refine ⟨?_, ?_, ?_⟩
  · intro h
    subst h
    rfl
  · intro e he
    unfold fetchPostsFromRss
    rw [he]
  · cases hr : rssInner ok body pd now limit with
    | error e => exact Or.inl (by unfold fetchPostsFromRss; rw [hr])
    | ok l =>
      by_cases hl : l = []
      · subst hl
        exact Or.inl (by unfold fetchPostsFromRss; rw [hr])
      · exact Or.inr ⟨l, rfl, hl, by unfold fetchPostsFromRss; rw [hr]⟩

theorem fetchPostsFromRss_never_raises_witness :
    fetchPostsFromRss false "<item><link>https://e.com/a/b</link></item>"
        (fun _ => none) "2024-05-01T00:00:00.000Z" 100 = []
    ∧ fetchPostsFromRss true "no items here" (fun _ => none)
        "2024-05-01T00:00:00.000Z" 100 = [] :=
  ⟨(fetchPostsFromRss_never_raises false "<item><link>https://e.com/a/b</link></item>"
      (fun _ => none) "2024-05-01T00:00:00.000Z" 100).1 rfl,
   (fetchPostsFromRss_never_raises true "no items here" (fun _ => none)
      "2024-05-01T00:00:00.000Z" 100).2.1 "RSS contained no posts" rfl⟩

/-- C8: for every item fragment whose link was extracted, the built post's
slug is the last non-empty path segment of that link and its embedded
category association carries the second-to-last path segment, defaulting to
the literal blog when no such segment is available. -/
theorem rss_slug_derivation (pd : String → Option String) (now item l : String) (p : Post)
    (hl : findTag "<link>" "</link>" item = some l)
    (hp : rssItemPost pd now item = Except.ok p) :
    p.slug = specSlugOfLink l
    ∧ p.embedded = some [[{ slug := specCategorySlugOfLink l, taxonomy := "category" }]] := by
  simp only [rssItemPost, hl] at hp
  cases hd : findTag "<pubdate>" "</pubdate>" item with
  | none =>
    rw [hd] at hp
    dsimp only at hp
    injection hp with h
    subst h
    exact ⟨rfl, rfl⟩
  | some d =>
    rw [hd] at hp
    dsimp only at hp
    cases hpd : pd d with
    | none =>
      rw [hpd] at hp
      exact Except.noConfusion hp
    | some isoD =>
      rw [hpd] at hp
      injection hp with h
      subst h
      exact ⟨rfl, rfl⟩

theorem rss_slug_derivation_witness :
    ({ slug := "hello", link := some "https://example.com/news/hello", modified := none,
       date := some "2024-01-15T00:00:00.000Z",
       embedded := some [[{ slug := "news", taxonomy := "category" }]] } : Post).slug
        = specSlugOfLink "https://example.com/news/hello"
    ∧ ({ slug := "hello", link := some "https://example.com/news/hello", modified := none,
         date := some "2024-01-15T00:00:00.000Z",
         embedded := some [[{ slug := "news", taxonomy := "category" }]] } : Post).embedded
        = some [[{ slug := specCategorySlugOfLink "https://example.com/news/hello",
                   taxonomy := "category" }]] :=
  rss_slug_derivation (fun _ => some "2024-01-15T00:00:00.000Z") "2025-01-01T00:00:00.000Z"
    "<item><link>https://example.com/news/hello</link><pubDate>Mon, 15 Jan 2024</pubDate></item>"
    "https://example.com/news/hello" _ rfl rfl

/-- C9 counterexample: a fragment from which a link was recovered is not
necessarily kept.  The fragment with link three-slashes yields a post whose
link is present but whose slug is empty (the link has no non-empty path
segment), and the feed consisting of exactly this fragment produces zero kept
posts — refuting the rule that a fragment with either a slug or a link is
kept, and its contrapositive reading that only fragments lacking both are
discarded. -/
theorem rss_discard_rule_cex :
    rssItemPost (fun _ => none) "2024-05-01T00:00:00.000Z" "<item><link>///</link></item>"
      = Except.ok { slug := "", link := some "///", modified := none,
                    date := some "2024-05-01T00:00:00.000Z",
                    embedded := some [[{ slug := "blog", taxonomy := "category" }]] }
    ∧ fetchPostsFromRss true "<item><link>///</link></item>" (fun _ => none)
        "2024-05-01T00:00:00.000Z" 100 = [] :=
  ⟨rfl, rfl⟩

/-- C9 amended: fetchPostsFromRss keeps exactly those item fragments from
which both a non-empty slug and a link were recovered; a fragment with a
recovered link but an empty derived slug is discarded. -/
theorem rss_discard_rule_amended (posts : List Post) (p : Post) :
    p ∈ sanitize posts ↔ p ∈ posts ∧ p.slug ≠ "" ∧ p.link.getD "" ≠ "" := by
  simp [sanitize, List.mem_filter]

theorem rss_discard_rule_amended_witness :
    ({ slug := "", link := some "///" } : Post)
      ∉ sanitize [{ slug := "", link := some "///" }] :=
  fun hmem => ((rss_discard_rule_amended _ _).mp hmem).2.1 rfl

/-- C10: a post built by the RSS fallback stores its parsed publication date
in the date field and never carries a modified field, so the renderer — which
reads only the modified field — stamps every fallback post with the current
run date, regardless of the feed's pubDate value. -/
theorem rss_lastmod_ignores_pubdate (pd : String → Option String) (now item : String)
    (p : Post) (hp : rssItemPost pd now item = Except.ok p) :
    p.modified = none
    ∧ ∀ (iso : String → String) (renderNow : String),
        postLastmod iso renderNow p = truncDate renderNow := by
  have hmod : p.modified = none := by
    simp only [rssItemPost] at hp
    cases hd : findTag "<pubdate>" "</pubdate>" item with
    | none =>
      rw [hd] at hp
      dsimp only at hp
      injection hp with h
      subst h
      rfl
    | some d =>
      rw [hd] at hp
      dsimp only at hp
      cases hpd : pd d with
      | none =>
        rw [hpd] at hp
        exact Except.noConfusion hp
      | some isoD =>
        rw [hpd] at hp
        injection hp with h
        subst h
        rfl
  exact ⟨hmod, fun iso renderNow => by simp [postLastmod, hmod]⟩

theorem rss_lastmod_ignores_pubdate_witness :
    ({ slug := "hello", link := some "https://example.com/news/hello", modified := none,
       date := some "2024-01-15T00:00:00.000Z",
       embedded := some [[{ slug := "news", taxonomy := "category" }]] } : Post).modified
        = none
    ∧ postLastmod (fun s => s) "2025-06-01T00:00:00.000Z"
        { slug := "hello", link := some "https://example.com/news/hello", modified := none,
          date := some "2024-01-15T00:00:00.000Z",
          embedded := some [[{ slug := "news", taxonomy := "category" }]] }
        = truncDate "2025-06-01T00:00:00.000Z" :=
  ⟨(rss_lastmod_ignores_pubdate (fun _ => some "2024-01-15T00:00:00.000Z")
      "2025-01-01T00:00:00.000Z"
      "<item><link>https://example.com/news/hello</link><pubDate>Mon, 15 Jan 2024</pubDate></item>"
      _ rfl).1,
   (rss_lastmod_ignores_pubdate (fun _ => some "2024-01-15T00:00:00.000Z")
      "2025-01-01T00:00:00.000Z"
      "<item><link>https://example.com/news/hello</link><pubDate>Mon, 15 Jan 2024</pubDate></item>"
      _ rfl).2 (fun s => s) "2025-06-01T00:00:00.000Z"⟩

end BlogSitemap
